import Mathlib

/-!
Shallow embedding of the query-orchestration core of the repository
(`QueryOrchestrator` in `src/query/QueryOrchestrator.ts` together with the
`IDataSource` / `SearchResult` contract from
`src/datasources/interfaces/IDataSource.ts`).

Conventions of the embedding:
* JS `number` relevance scores are modelled as rationals (`ℚ`); the sort
  comparator `b.relevanceScore - a.relevanceScore` orders by score
  descending, and JS `Array.prototype.sort` is stable (ES2019), so the
  sort step is modelled by a stable descending insertion sort.
* A backend's fallible `search` is modelled as `String → Except String _`.
* The `onProgress` callback is modelled by returning the list of emitted
  progress events next to the results.  The async fan-out first runs every
  closure synchronously up to its first await (emitting all `searching`
  events in registration order) and then each promise settles; the model
  lists the terminal events in registration order, which is the settlement
  order for the deterministic embedding.  The claims checked below only
  depend on which events occur, not on cross-backend interleaving.
-/

namespace MCPOrch

/-- `SearchResult` from `IDataSource.ts`: `source`, `title`, `content`,
optional `url`, numeric `relevanceScore` (the opaque `metadata` payload is
never read by the orchestrator and is omitted). -/
structure SearchResult where
  source : String
  title : String
  content : String
  url : Option String
  relevanceScore : ℚ
deriving DecidableEq, Repr

/-- The `status` field of `SearchProgress`. -/
inductive SearchStatus where
  | searching
  | completed
  | error
deriving DecidableEq, Repr

/-- `SearchProgress` events emitted to the `onProgress` callback. -/
structure SearchProgress where
  source : String
  status : SearchStatus
  resultCount : Option Nat
deriving DecidableEq, Repr

/-- The part of the `IDataSource` contract the orchestrator uses:
`name`, the synchronous relevance predicate, and the fallible `search`. -/
structure IDataSource where
  name : String
  isRelevantFor : String → Bool
  search : String → Except String (List SearchResult)

/-- Lines 20–23 of `QueryOrchestrator.search`: filter the registered
sources by `isRelevantFor(query)`; if none match, fall back to all. -/
def selectSources (dataSources : List IDataSource) (query : String) :
    List IDataSource :=
  let relevantSources := dataSources.filter (fun ds => ds.isRelevantFor query)
  if relevantSources.length > 0 then relevantSources else dataSources

/-- One backend's unit of work (the async closure at lines 28–54, without
the leading `searching` event): on success a `completed` event carrying the
result count and the results; on failure an `error` event and an empty
contribution. -/
def searchOne (query : String) (source : IDataSource) :
    SearchProgress × List SearchResult :=
  match source.search query with
  | Except.ok results =>
      (⟨source.name, SearchStatus.completed, some results.length⟩, results)
  | Except.error _ =>
      (⟨source.name, SearchStatus.error, none⟩, [])

/-- The dedup key built at line 78: the string `` `${title}-${source}` ``. -/
def dedupKey (r : SearchResult) : String :=
  r.title ++ "-" ++ r.source

/-- Stable descending insertion of one element: `x` goes in front of the
first element whose score does not exceed `x`'s, so equal scores keep the
earlier element first. -/
def insertDesc (x : SearchResult) : List SearchResult → List SearchResult
  | [] => [x]
  | y :: ys =>
      if y.relevanceScore ≤ x.relevanceScore then x :: y :: ys
      else y :: insertDesc x ys

/-- The stable sort at line 71 (`sort((a, b) => b.relevanceScore -
a.relevanceScore)`), as a stable descending insertion sort. -/
def sortByScore : List SearchResult → List SearchResult
  | [] => []
  | x :: xs => insertDesc x (sortByScore xs)

/-- The dedup loop at lines 74–83: walk the sorted list, keep a result
whose key is not in `seen`, adding its key to `seen`. -/
def dedupLoop (seen : List String) : List SearchResult → List SearchResult
  | [] => []
  | r :: rs =>
      if dedupKey r ∈ seen then dedupLoop seen rs
      else r :: dedupLoop (dedupKey r :: seen) rs

/-- `rankResults` (lines 69–86): stable sort by score descending, then
first-occurrence dedup on `dedupKey`.  The `query` parameter is unused in
the source as well. -/
def rankResults (results : List SearchResult) (query : String) :
    List SearchResult :=
  dedupLoop [] (sortByScore results)

/-- The whole `search` entry point (lines 15–64): select sources, fan out,
collect progress events and results, rank.  Returns (events, results). -/
def search (dataSources : List IDataSource) (query : String) :
    List SearchProgress × List SearchResult :=
  let sourcesToSearch := selectSources dataSources query
  let searchingEvents : List SearchProgress :=
    sourcesToSearch.map (fun s => ⟨s.name, SearchStatus.searching, none⟩)
  let outcomes := sourcesToSearch.map (searchOne query)
  let allResults := (outcomes.map Prod.snd).flatten
  (searchingEvents ++ outcomes.map Prod.fst, rankResults allResults query)

/-- `groupBySource`'s accumulator step (lines 117–123) for ordinary
source names (neither an ECMAScript array-index string nor an
`Object.prototype` member name): the accumulator object then behaves as
an insertion-ordered association list; a new source is appended at the
end, an existing one has the result pushed onto its bucket.  The general
case, with numeric-first key ordering and the prototype-collision
TypeError, is modelled by `insertGroupJS` below. -/
def insertGroup (acc : List (String × List SearchResult))
    (result : SearchResult) : List (String × List SearchResult) :=
  if acc.any (fun g => g.1 = result.source) then
    acc.map (fun g =>
      if g.1 = result.source then (g.1, g.2 ++ [result]) else g)
  else acc ++ [(result.source, [result])]

/-- `groupBySource` (lines 116–124): `reduce` over the results, in the
insertion-ordered idealization (see `groupBySourceJS` for the
ECMAScript-faithful version). -/
def groupBySource (results : List SearchResult) :
    List (String × List SearchResult) :=
  results.foldl insertGroup []

/-- One result line block of `formatResults` (lines 104–109). -/
def renderResult (item : SearchResult) : String :=
  "- **" ++ item.title ++ "**\n" ++ "  " ++ item.content ++ "\n" ++
    (match item.url with
     | some u => "  " ++ u ++ "\n"
     | none => "") ++ "\n"

/-- One source block of `formatResults` (lines 101–111). -/
def renderGroup (g : String × List SearchResult) : String :=
  "**" ++ g.1 ++ "** (" ++ toString g.2.length ++ " results):\n" ++
    String.join (g.2.map renderResult)

/-- `formatResults` (lines 91–114): fixed message on empty input,
otherwise truncate to `maxResults`, group by source, and render the
header (pre-truncation total, number of groups) plus one block per
source.  Uses the insertion-ordered grouping idealization, which matches
the program for ordinary source names; `formatResultsJS` below models
the exotic-key cases. -/
def formatResults (results : List SearchResult) (maxResults : Nat := 10) :
    String :=
  if results.length = 0 then
    "No results found across any data sources."
  else
    let topResults := results.take maxResults
    let sourceGroups := groupBySource topResults
    "Found " ++ toString results.length ++ " results across " ++
      toString sourceGroups.length ++ " sources:\n\n" ++
      String.join (sourceGroups.map renderGroup)

/-! ### The ECMAScript-faithful grouping model

`insertGroup`/`groupBySource`/`formatResults` above treat the
accumulator object as a plain insertion-ordered association list, which
matches the real code only for ordinary source names.  Real ECMAScript
objects differ in two ways that matter for exotic `source` strings:

* `Object.keys` / `Object.entries` list own properties whose key is an
  array index (the canonical decimal form of an integer below 2^32 - 1,
  e.g. "5") first, in ascending numeric order, before the remaining
  string keys in creation order;
* property lookup `acc[result.source]` also finds inherited
  `Object.prototype` members, so for a source named e.g. "toString" the
  `!acc[result.source]` guard at line 118 is false and
  `acc[result.source].push(result)` at line 121 throws a TypeError.

The definitions below refine the model accordingly. -/

/-- The property names a plain object `{}` inherits from
`Object.prototype`; for these `acc[source]` is truthy without an own
property existing. -/
def protoProps : List String :=
  ["constructor", "hasOwnProperty", "isPrototypeOf",
   "propertyIsEnumerable", "toLocaleString", "toString", "valueOf",
   "__proto__", "__defineGetter__", "__defineSetter__",
   "__lookupGetter__", "__lookupSetter__"]

/-- Numeric value of a list of decimal digit characters. -/
def digitsToNat (cs : List Char) : Nat :=
  cs.foldl (fun acc c => acc * 10 + (c.toNat - 48)) 0

/-- An ECMAScript array index: the canonical decimal string (digits
only, no leading zero except "0" itself) of an integer below
2^32 - 1. -/
def isArrayIndex (s : String) : Bool :=
  match s.data with
  | [] => false
  | c :: cs =>
      (c :: cs).all Char.isDigit
        && (!(c == '0') || cs.isEmpty)
        && decide (digitsToNat (c :: cs) < 4294967295)

/-- Lines 117–122 with real object semantics: `!acc[result.source]` is
false either when an own bucket exists (then push appends to it) or when
the name is an `Object.prototype` member (then push is not a function
and a TypeError is thrown); only otherwise is a fresh bucket created at
the end. -/
def insertGroupJS (acc : List (String × List SearchResult))
    (result : SearchResult) :
    Except String (List (String × List SearchResult)) :=
  if acc.any (fun g => g.1 = result.source) ∨ result.source ∈ protoProps
  then
    if acc.any (fun g => g.1 = result.source) then
      Except.ok (acc.map (fun g =>
        if g.1 = result.source then (g.1, g.2 ++ [result]) else g))
    else Except.error "TypeError: push is not a function"
  else Except.ok (acc ++ [(result.source, [result])])

/-- `groupBySource` with real object semantics: the reduce propagates
the first thrown TypeError. -/
def groupBySourceJS (results : List SearchResult) :
    Except String (List (String × List SearchResult)) :=
  results.foldlM insertGroupJS []

/-- Ascending insertion by numeric key value (array-index keys are
canonical numerals and own keys are distinct, so no ties arise). -/
def insertAsc (x : String × List SearchResult) :
    List (String × List SearchResult) → List (String × List SearchResult)
  | [] => [x]
  | y :: ys =>
      if digitsToNat x.1.data ≤ digitsToNat y.1.data then x :: y :: ys
      else y :: insertAsc x ys

/-- Ascending insertion sort by numeric key value. -/
def sortAsc : List (String × List SearchResult) →
    List (String × List SearchResult)
  | [] => []
  | x :: xs => insertAsc x (sortAsc xs)

/-- `Object.keys` / `Object.entries` order: array-index keys first in
ascending numeric order, then the other keys in creation order. -/
def entriesOrder (gs : List (String × List SearchResult)) :
    List (String × List SearchResult) :=
  sortAsc (gs.filter (fun g => isArrayIndex g.1))
    ++ gs.filter (fun g => ! isArrayIndex g.1)

/-- `formatResults` (lines 91–114) over the ECMAScript-faithful
grouping: a TypeError from the reduce propagates out, and the header
count and the block iteration follow `Object.keys` / `Object.entries`
order. -/
def formatResultsJS (results : List SearchResult)
    (maxResults : Nat := 10) : Except String String :=
  if results.length = 0 then
    Except.ok "No results found across any data sources."
  else do
    let topResults := results.take maxResults
    let sourceGroups ← groupBySourceJS topResults
    let entries := entriesOrder sourceGroups
    pure ("Found " ++ toString results.length ++ " results across " ++
      toString entries.length ++ " sources:\n\n" ++
      String.join (entries.map renderGroup))

/-! ### Spec-side definitions

These follow the wording of the specification (§4.4 deduplication, §4.5
grouping) and are compared against the source-side definitions above. -/

/-- Spec §4.4 step 2, positionally: keep the head and drop every later
result with the same key, then continue. -/
def specDedup : List SearchResult → List SearchResult
  | [] => []
  | x :: xs =>
      x :: specDedup (xs.filter (fun y => dedupKey y ≠ dedupKey x))
termination_by l => l.length
decreasing_by
  exact Nat.lt_succ_of_le (List.length_filter_le _ _)

/-- Record a source name the first time it appears. -/
def addSource (acc : List String) (s : String) : List String :=
  if s ∈ acc then acc else acc ++ [s]

/-- The distinct source names of a result list, in first-appearance
order. -/
def seenSources (results : List SearchResult) : List String :=
  (results.map (fun r => r.source)).foldl addSource []

/-- Spec §4.5 grouping: sources in first-appearance order, each paired
with the sub-list of results carrying that source, in order. -/
def groupSpec (results : List SearchResult) :
    List (String × List SearchResult) :=
  (seenSources results).map
    (fun s => (s, results.filter (fun r => r.source = s)))

/-! ### A variant model in which `isRelevantFor` can raise

`Array.prototype.filter` evaluates its callback on every element in index
order; an exception thrown by the callback propagates out of `filter` and
hence out of `search`, whose body has no try/catch around the filter
(lines 19–23). -/

/-- A data source whose relevance predicate may raise. -/
structure IDataSourceE where
  name : String
  isRelevantFor : String → Except String Bool
  search : String → Except String (List SearchResult)

/-- JS `Array.filter` with a throwing callback: elements are tested in
order and the first exception propagates. -/
def filterE (p : IDataSourceE → Except String Bool) :
    List IDataSourceE → Except String (List IDataSourceE)
  | [] => Except.ok []
  | x :: xs => do
    let b ← p x
    let rest ← filterE p xs
    pure (if b then x :: rest else rest)

/-- `searchOne` for the raising-predicate model (the per-backend try/catch
at lines 33–53 still contains `search` failures). -/
def searchOneE (query : String) (source : IDataSourceE) :
    SearchProgress × List SearchResult :=
  match source.search query with
  | Except.ok results =>
      (⟨source.name, SearchStatus.completed, some results.length⟩, results)
  | Except.error _ =>
      (⟨source.name, SearchStatus.error, none⟩, [])

/-- `QueryOrchestrator.search` when relevance predicates may raise: the
filter at line 20 runs before any backend is searched, and nothing
catches an exception it throws. -/
def searchE (dataSources : List IDataSourceE) (query : String) :
    Except String (List SearchProgress × List SearchResult) := do
  let relevantSources ← filterE (fun ds => ds.isRelevantFor query) dataSources
  let sourcesToSearch :=
    if relevantSources.length > 0 then relevantSources else dataSources
  let searchingEvents : List SearchProgress :=
    sourcesToSearch.map (fun s => ⟨s.name, SearchStatus.searching, none⟩)
  let outcomes := sourcesToSearch.map (searchOneE query)
  let allResults := (outcomes.map Prod.snd).flatten
  pure (searchingEvents ++ outcomes.map Prod.fst, rankResults allResults query)

/-! ### Helper lemmas about the stable descending sort -/

lemma insertDesc_perm (x : SearchResult) (l : List SearchResult) :
    (insertDesc x l).Perm (x :: l) := by
  induction l with
  | nil => exact List.Perm.refl _
  | cons y ys ih =>
    unfold insertDesc
    by_cases h : y.relevanceScore ≤ x.relevanceScore
    · rw [if_pos h]
    · rw [if_neg h]
      exact (ih.cons y).trans (List.Perm.swap x y ys)

lemma sortByScore_perm (l : List SearchResult) : (sortByScore l).Perm l := by
  induction l with
  | nil => exact List.Perm.refl _
  | cons x xs ih =>
    exact (insertDesc_perm x (sortByScore xs)).trans (ih.cons x)

lemma mem_insertDesc {z x : SearchResult} {l : List SearchResult} :
    z ∈ insertDesc x l ↔ z = x ∨ z ∈ l := by
  rw [(insertDesc_perm x l).mem_iff, List.mem_cons]

lemma insertDesc_pairwise (x : SearchResult) {l : List SearchResult}
    (h : l.Pairwise (fun a b => b.relevanceScore ≤ a.relevanceScore)) :
    (insertDesc x l).Pairwise
      (fun a b => b.relevanceScore ≤ a.relevanceScore) := by
  induction l with
  | nil => simp [insertDesc]
  | cons y ys ih =>
    rw [List.pairwise_cons] at h
    unfold insertDesc
    by_cases hc : y.relevanceScore ≤ x.relevanceScore
    · rw [if_pos hc]
      refine List.pairwise_cons.mpr ⟨?_, List.pairwise_cons.mpr h⟩
      intro z hz
      rcases List.mem_cons.mp hz with rfl | hz
      · exact hc
      · exact le_trans (h.1 z hz) hc
    · rw [if_neg hc]
      refine List.pairwise_cons.mpr ⟨?_, ih h.2⟩
      intro z hz
      rcases mem_insertDesc.mp hz with rfl | hz
      · exact le_of_lt (not_le.mp hc)
      · exact h.1 z hz

lemma sortByScore_pairwise (l : List SearchResult) :
    (sortByScore l).Pairwise
      (fun a b => b.relevanceScore ≤ a.relevanceScore) := by
  induction l with
  | nil => simp [sortByScore]
  | cons x xs ih => exact insertDesc_pairwise x ih

lemma insertDesc_filter_pos {s : ℚ} {x : SearchResult}
    (hx : x.relevanceScore = s) (l : List SearchResult) :
    (insertDesc x l).filter (fun r => r.relevanceScore = s)
      = x :: l.filter (fun r => r.relevanceScore = s) := by
  induction l with
  | nil => simp [insertDesc, hx]
  | cons y ys ih =>
    unfold insertDesc
    by_cases hc : y.relevanceScore ≤ x.relevanceScore
    · rw [if_pos hc]
      simp [List.filter_cons, hx]
    · rw [if_neg hc]
      have hy : ¬ (y.relevanceScore = s) := by
        intro he
        exact hc (le_of_eq (he.trans hx.symm))
      simp [List.filter_cons, hy, ih]

lemma insertDesc_filter_neg {s : ℚ} {x : SearchResult}
    (hx : ¬ x.relevanceScore = s) (l : List SearchResult) :
    (insertDesc x l).filter (fun r => r.relevanceScore = s)
      = l.filter (fun r => r.relevanceScore = s) := by
  induction l with
  | nil => simp [insertDesc, hx]
  | cons y ys ih =>
    unfold insertDesc
    by_cases hc : y.relevanceScore ≤ x.relevanceScore
    · rw [if_pos hc]
      simp [List.filter_cons, hx]
    · rw [if_neg hc]
      simp [List.filter_cons, ih]

lemma sortByScore_filter (s : ℚ) (l : List SearchResult) :
    (sortByScore l).filter (fun r => r.relevanceScore = s)
      = l.filter (fun r => r.relevanceScore = s) := by
  induction l with
  | nil => rfl
  | cons x xs ih =>
    show (insertDesc x (sortByScore xs)).filter _ = _
    by_cases hx : x.relevanceScore = s
    · rw [insertDesc_filter_pos hx, ih]
      simp [List.filter_cons, hx]
    · rw [insertDesc_filter_neg hx, ih]
      simp [List.filter_cons, hx]

/-! ### Helper lemmas about deduplication -/

/-- Number of results in `l` whose dedup key is `k`. -/
def countKey (l : List SearchResult) (k : String) : Nat :=
  (l.filter (fun r => dedupKey r = k)).length

lemma dedupLoop_eq_specDedup (seen : List String) (l : List SearchResult) :
    dedupLoop seen l
      = specDedup (l.filter (fun r => ¬ dedupKey r ∈ seen)) := by
  induction l generalizing seen with
  | nil => simp [dedupLoop, specDedup]
  | cons x xs ih =>
    unfold dedupLoop
    by_cases hx : dedupKey x ∈ seen
    · rw [if_pos hx, ih seen]
      congr 1
      simp [List.filter_cons, hx]
    · rw [if_neg hx, ih (dedupKey x :: seen)]
      have hcons : (x :: xs).filter (fun r => ¬ dedupKey r ∈ seen)
          = x :: xs.filter (fun r => ¬ dedupKey r ∈ seen) := by
        simp [List.filter_cons, hx]
      have hfil : xs.filter (fun r => ¬ dedupKey r ∈ dedupKey x :: seen)
          = (xs.filter (fun r => ¬ dedupKey r ∈ seen)).filter
              (fun y => dedupKey y ≠ dedupKey x) := by
        rw [List.filter_filter]
        apply List.filter_congr
        intro a _
        by_cases h1 : dedupKey a = dedupKey x <;>
          by_cases h2 : dedupKey a ∈ seen <;>
            simp [h1, h2]
      rw [hfil, hcons, specDedup]

lemma specDedup_sublist (l : List SearchResult) :
    List.Sublist (specDedup l) l := by
  induction l using specDedup.induct with
  | case1 =>
    rw [specDedup]
  | case2 x xs ih =>
    rw [specDedup]
    exact (ih.trans (List.filter_sublist xs)).cons₂ x

lemma countKey_specDedup_of_mem :
    ∀ l : List SearchResult, ∀ r ∈ l,
      countKey (specDedup l) (dedupKey r) = 1 := by
  intro l
  induction l using specDedup.induct with
  | case1 => intro r hr; cases hr
  | case2 x xs ih =>
    intro r hr
    rw [specDedup]
    by_cases hk : dedupKey r = dedupKey x
    · unfold countKey
      rw [hk, List.filter_cons]
      have h0 : (specDedup (xs.filter
            (fun y => dedupKey y ≠ dedupKey x))).filter
          (fun y => dedupKey y = dedupKey x) = [] := by
        rw [List.filter_eq_nil_iff]
        intro a ha
        have hmem := List.mem_filter.mp ((specDedup_sublist _).mem ha)
        simpa using hmem.2
      rw [if_pos (by simp), h0]
      rfl
    · have hrx : r ∈ xs := by
        rcases List.mem_cons.mp hr with rfl | h
        · exact absurd rfl hk
        · exact h
      have hrf : r ∈ xs.filter (fun y => dedupKey y ≠ dedupKey x) := by
        rw [List.mem_filter]
        exact ⟨hrx, by simpa using hk⟩
      have hone := ih r hrf
      unfold countKey at hone ⊢
      rw [List.filter_cons, if_neg (by simpa using Ne.symm hk)]
      exact hone

lemma specDedup_maxScore :
    ∀ l : List SearchResult,
      l.Pairwise (fun a b => b.relevanceScore ≤ a.relevanceScore) →
      ∀ u ∈ specDedup l, ∀ r ∈ l, dedupKey r = dedupKey u →
        r.relevanceScore ≤ u.relevanceScore := by
  intro l
  induction l using specDedup.induct with
  | case1 =>
    intro _ u hu
    rw [specDedup] at hu
    cases hu
  | case2 x xs ih =>
    intro hp u hu r hr hk
    rw [specDedup] at hu
    rw [List.pairwise_cons] at hp
    rcases List.mem_cons.mp hu with rfl | hu
    · rcases List.mem_cons.mp hr with rfl | hr
      · exact le_refl _
      · exact hp.1 r hr
    · have hux : dedupKey u ≠ dedupKey x := by
        have hmem := List.mem_filter.mp ((specDedup_sublist _).mem hu)
        simpa using hmem.2
      have hpf : (xs.filter (fun y => dedupKey y ≠ dedupKey x)).Pairwise
          (fun a b => b.relevanceScore ≤ a.relevanceScore) :=
        hp.2.sublist (List.filter_sublist xs)
      rcases List.mem_cons.mp hr with rfl | hr
      · exact absurd hk.symm hux
      · have hrf : r ∈ xs.filter (fun y => dedupKey y ≠ dedupKey x) := by
          rw [List.mem_filter]
          exact ⟨hr, by simpa using hk.trans_ne hux⟩
        exact ih hpf u hu r hrf hk

lemma rankResults_eq_specDedup (results : List SearchResult)
    (query : String) :
    rankResults results query = specDedup (sortByScore results) := by
  unfold rankResults
  rw [dedupLoop_eq_specDedup]
  congr 1
  simp

/-! ### Helper lemmas about grouping by source -/

lemma mem_foldl_addSource (m : List String) :
    ∀ (acc : List String) (s : String),
      s ∈ m.foldl addSource acc ↔ s ∈ acc ∨ s ∈ m := by
  induction m with
  | nil => intro acc s; simp
  | cons x xs ih =>
    intro acc s
    rw [List.foldl_cons, ih]
    unfold addSource
    by_cases hx : x ∈ acc
    · rw [if_pos hx]
      simp only [List.mem_cons]
      constructor
      · rintro (h | h)
        · exact Or.inl h
        · exact Or.inr (Or.inr h)
      · rintro (h | rfl | h)
        · exact Or.inl h
        · exact Or.inl hx
        · exact Or.inr h
    · rw [if_neg hx]
      simp [or_assoc]

lemma nodup_foldl_addSource (m : List String) :
    ∀ acc : List String, acc.Nodup → (m.foldl addSource acc).Nodup := by
  induction m with
  | nil => intro acc h; exact h
  | cons x xs ih =>
    intro acc h
    rw [List.foldl_cons]
    apply ih
    unfold addSource
    by_cases hx : x ∈ acc
    · rw [if_pos hx]; exact h
    · rw [if_neg hx]
      refine List.Nodup.append h (List.nodup_singleton x) ?_
      intro a ha hax
      rw [List.mem_singleton] at hax
      exact hx (hax ▸ ha)

lemma mem_seenSources {l : List SearchResult} {s : String} :
    s ∈ seenSources l ↔ ∃ r ∈ l, r.source = s := by
  unfold seenSources
  rw [mem_foldl_addSource]
  simp

lemma seenSources_nodup (l : List SearchResult) : (seenSources l).Nodup :=
  nodup_foldl_addSource _ _ List.nodup_nil

lemma seenSources_append (p : List SearchResult) (r : SearchResult) :
    seenSources (p ++ [r]) = addSource (seenSources p) r.source := by
  unfold seenSources
  rw [List.map_append, List.foldl_append]
  rfl

lemma insertGroup_groupSpec (p : List SearchResult) (r : SearchResult) :
    insertGroup (groupSpec p) r = groupSpec (p ++ [r]) := by
  unfold insertGroup
  by_cases hmem : r.source ∈ seenSources p
  · have hany : (groupSpec p).any (fun g => g.1 = r.source) = true := by
      rw [List.any_eq_true]
      refine ⟨(r.source, p.filter (fun x => x.source = r.source)),
        ?_, by simp⟩
      exact List.mem_map.mpr ⟨r.source, hmem, rfl⟩
    rw [if_pos hany]
    unfold groupSpec
    rw [seenSources_append]
    unfold addSource
    rw [if_pos hmem, List.map_map]
    apply List.map_congr_left
    intro s _
    by_cases hs : s = r.source
    · simp [Function.comp, hs, List.filter_append, List.filter_cons]
    · simp [Function.comp, hs, Ne.symm hs, List.filter_append,
        List.filter_cons]
  · have hany : ¬ ((groupSpec p).any (fun g => g.1 = r.source) = true) := by
      rw [List.any_eq_true]
      rintro ⟨g, hg, hgs⟩
      rcases List.mem_map.mp hg with ⟨s, hs, rfl⟩
      exact hmem ((by simpa using hgs : s = r.source) ▸ hs)
    rw [if_neg hany]
    unfold groupSpec
    rw [seenSources_append]
    unfold addSource
    rw [if_neg hmem, List.map_append]
    congr 1
    · apply List.map_congr_left
      intro s hs
      have hsr : ¬ (r.source = s) := fun he => hmem (he ▸ hs)
      simp [List.filter_append, List.filter_cons, hsr]
    · have hnil : p.filter (fun x => x.source = r.source) = [] := by
        rw [List.filter_eq_nil_iff]
        intro a ha
        simpa using fun he => hmem (mem_seenSources.mpr ⟨a, ha, he⟩)
      simp [List.filter_append, List.filter_cons, hnil]

lemma foldl_insertGroup :
    ∀ (rest p : List SearchResult),
      List.foldl insertGroup (groupSpec p) rest = groupSpec (p ++ rest) := by
  intro rest
  induction rest with
  | nil => intro p; rw [List.foldl_nil, List.append_nil]
  | cons r rs ih =>
    intro p
    rw [List.foldl_cons, insertGroup_groupSpec, ih (p ++ [r])]
    congr 1
    simp

lemma groupBySource_eq_groupSpec (l : List SearchResult) :
    groupBySource l = groupSpec l := by
  have h := foldl_insertGroup l []
  rw [List.nil_append] at h
  exact h

/-! ### Helper lemmas about the ECMAScript-faithful grouping -/

lemma insertGroupJS_ok (acc : List (String × List SearchResult))
    (r : SearchResult) (h : ¬ r.source ∈ protoProps) :
    insertGroupJS acc r = Except.ok (insertGroup acc r) := by
  unfold insertGroupJS insertGroup
  by_cases hown : acc.any (fun g => g.1 = r.source) = true
  · rw [if_pos (Or.inl hown), if_pos hown, if_pos hown]
  · have hcond : ¬ (acc.any (fun g => g.1 = r.source) = true
        ∨ r.source ∈ protoProps) := by
      rintro (hc | hc)
      · exact hown hc
      · exact h hc
    rw [if_neg hcond, if_neg hown]

lemma insertGroup_keys {acc : List (String × List SearchResult)}
    {x : SearchResult} {g : String × List SearchResult}
    (hg : g ∈ insertGroup acc x) :
    g.1 = x.source ∨ ∃ g0 ∈ acc, g.1 = g0.1 := by
  unfold insertGroup at hg
  by_cases hown : acc.any (fun g => g.1 = x.source) = true
  · rw [if_pos hown] at hg
    rcases List.mem_map.mp hg with ⟨g0, hg0, rfl⟩
    have hfst : (if g0.1 = x.source then (g0.1, g0.2 ++ [x]) else g0).1
        = g0.1 := by
      by_cases hc : g0.1 = x.source
      · rw [if_pos hc]
      · rw [if_neg hc]
    exact Or.inr ⟨g0, hg0, hfst⟩
  · rw [if_neg hown] at hg
    rcases List.mem_append.mp hg with hg | hg
    · exact Or.inr ⟨g, hg, rfl⟩
    · rw [List.mem_singleton] at hg
      rw [hg]
      exact Or.inl rfl

lemma foldlM_insertGroupJS_ok :
    ∀ (l : List SearchResult) (acc : List (String × List SearchResult)),
      (∀ r ∈ l, ¬ r.source ∈ protoProps) →
      List.foldlM insertGroupJS acc l
        = Except.ok (List.foldl insertGroup acc l) := by
  intro l
  induction l with
  | nil => intro acc _; rfl
  | cons x xs ih =>
    intro acc h
    rw [List.foldlM_cons,
      insertGroupJS_ok acc x (h x (List.mem_cons_self x xs)),
      List.foldl_cons]
    exact ih _ (fun r hr => h r (List.mem_cons_of_mem x hr))

lemma foldlM_insertGroupJS_error :
    ∀ (l : List SearchResult) (acc : List (String × List SearchResult)),
      (∃ r ∈ l, r.source ∈ protoProps) →
      (∀ g ∈ acc, ¬ g.1 ∈ protoProps) →
      List.foldlM insertGroupJS acc l
        = Except.error "TypeError: push is not a function" := by
  intro l
  induction l with
  | nil =>
    rintro acc ⟨r, hr, _⟩ _
    cases hr
  | cons x xs ih =>
    rintro acc ⟨r, hr, hrp⟩ hacc
    rw [List.foldlM_cons]
    by_cases hxp : x.source ∈ protoProps
    · have hown : ¬ (acc.any (fun g => g.1 = x.source) = true) := by
        rw [List.any_eq_true]
        rintro ⟨g, hg, hgs⟩
        exact hacc g hg
          (((by simpa using hgs : g.1 = x.source)) ▸ hxp)
      rw [show insertGroupJS acc x
            = Except.error "TypeError: push is not a function" by
          unfold insertGroupJS
          rw [if_pos (Or.inr hxp), if_neg hown]]
      rfl
    · have hr2 : r ∈ xs := by
        rcases List.mem_cons.mp hr with rfl | hh
        · exact absurd hrp hxp
        · exact hh
      rw [insertGroupJS_ok acc x hxp]
      have hinv : ∀ g ∈ insertGroup acc x, ¬ g.1 ∈ protoProps := by
        intro g hg
        rcases insertGroup_keys hg with hgx | ⟨g0, hg0, hgg⟩
        · rw [hgx]; exact hxp
        · rw [hgg]; exact hacc g0 hg0
      exact ih (insertGroup acc x) ⟨r, hr2, hrp⟩ hinv

lemma insertAsc_perm (x : String × List SearchResult)
    (l : List (String × List SearchResult)) :
    (insertAsc x l).Perm (x :: l) := by
  induction l with
  | nil => exact List.Perm.refl _
  | cons y ys ih =>
    unfold insertAsc
    by_cases hc : digitsToNat x.1.data ≤ digitsToNat y.1.data
    · rw [if_pos hc]
    · rw [if_neg hc]
      exact (ih.cons y).trans (List.Perm.swap x y ys)

lemma sortAsc_perm (l : List (String × List SearchResult)) :
    (sortAsc l).Perm l := by
  induction l with
  | nil => exact List.Perm.refl _
  | cons x xs ih => exact (insertAsc_perm x (sortAsc xs)).trans (ih.cons x)

lemma entriesOrder_perm (gs : List (String × List SearchResult)) :
    (entriesOrder gs).Perm gs := by
  unfold entriesOrder
  refine (List.Perm.append_right _ (sortAsc_perm _)).trans ?_
  exact List.filter_append_perm _ gs

/-! ### Helper lemmas about the executor -/

lemma selectSources_eq (dataSources : List IDataSource) (query : String) :
    selectSources dataSources query
      = if (dataSources.filter (fun ds => ds.isRelevantFor query)).length > 0
        then dataSources.filter (fun ds => ds.isRelevantFor query)
        else dataSources := rfl

lemma search_eq (dataSources : List IDataSource) (query : String) :
    search dataSources query
      = ((selectSources dataSources query).map
            (fun s => (⟨s.name, SearchStatus.searching, none⟩ : SearchProgress))
          ++ ((selectSources dataSources query).map
              (searchOne query)).map Prod.fst,
         rankResults (((selectSources dataSources query).map
            (searchOne query)).map Prod.snd).flatten query) := rfl

lemma searchingEvents_filter_error (sel : List IDataSource) :
    (sel.map (fun s =>
        (⟨s.name, SearchStatus.searching, none⟩ : SearchProgress))).filter
      (fun e => e.status = SearchStatus.error) = [] := by
  rw [List.filter_eq_nil_iff]
  intro e he
  rcases List.mem_map.mp he with ⟨s, _, rfl⟩
  simp

lemma terminal_filter_error (q : String) (sel : List IDataSource) :
    ((sel.map (searchOne q)).map Prod.fst).filter
        (fun e => e.status = SearchStatus.error)
      = (sel.filter (fun ds => ¬ (ds.search q).isOk)).map
          (fun ds => ⟨ds.name, SearchStatus.error, none⟩) := by
  induction sel with
  | nil => rfl
  | cons d ds ih =>
    simp only [List.map_cons, List.filter_cons]
    cases hd : d.search q with
    | ok rs =>
      rw [show (searchOne q d).fst
            = ⟨d.name, SearchStatus.completed, some rs.length⟩ by
          unfold searchOne; rw [hd]]
      rw [if_neg (by simp), if_neg (by simp [hd, Except.isOk, Except.toBool])]
      exact ih
    | error e =>
      rw [show (searchOne q d).fst = ⟨d.name, SearchStatus.error, none⟩ by
          unfold searchOne; rw [hd]]
      rw [if_pos (by simp),
        if_pos (by simp [hd, Except.isOk, Except.toBool]), List.map_cons]
      rw [ih]

lemma flatten_outcomes (q : String) (sel : List IDataSource) :
    ((sel.map (searchOne q)).map Prod.snd).flatten
      = ((sel.filter (fun ds => (ds.search q).isOk)).map
          (fun ds => (ds.search q).toOption.getD [])).flatten := by
  induction sel with
  | nil => rfl
  | cons d ds ih =>
    simp only [List.map_cons, List.flatten_cons, List.filter_cons]
    cases hd : d.search q with
    | ok rs =>
      rw [show (searchOne q d).snd = rs by unfold searchOne; rw [hd]]
      rw [if_pos (by simp [hd, Except.isOk, Except.toBool]), List.map_cons,
        List.flatten_cons]
      rw [show (d.search q).toOption.getD [] = rs by
        rw [hd]; rfl]
      rw [ih]
    | error e =>
      rw [show (searchOne q d).snd = [] by unfold searchOne; rw [hd]]
      rw [if_neg (by simp [hd, Except.isOk, Except.toBool]), List.nil_append]
      exact ih

lemma filterE_isOk_false {p : IDataSourceE → Except String Bool}
    {l : List IDataSourceE} (h : ∃ ds ∈ l, (p ds).isOk = false) :
    (filterE p l).isOk = false := by
  induction l with
  | nil =>
    rcases h with ⟨ds, hds, _⟩
    cases hds
  | cons x xs ih =>
    rcases h with ⟨ds, hds, hfail⟩
    unfold filterE
    rcases List.mem_cons.mp hds with rfl | hds
    · cases hp : p ds with
      | ok b =>
        rw [hp] at hfail
        simp [Except.isOk, Except.toBool] at hfail
      | error e =>
        simp [hp, Except.isOk, Except.toBool, Bind.bind, Except.bind,
          Functor.map, Except.map]
    · cases hp : p x with
      | error e =>
        simp [hp, Except.isOk, Except.toBool, Bind.bind, Except.bind,
          Functor.map, Except.map]
      | ok b =>
        have hxs := ih ⟨ds, hds, hfail⟩
        cases hr : filterE p xs with
        | error e2 =>
          simp [hp, hr, Except.isOk, Except.toBool, Bind.bind, Except.bind,
            Functor.map, Except.map]
        | ok rest =>
          rw [hr] at hxs
          simp [Except.isOk, Except.toBool] at hxs

lemma searchE_isOk_false {dataSources : List IDataSourceE} {query : String}
    (h : (filterE (fun ds => ds.isRelevantFor query)
        dataSources).isOk = false) :
    (searchE dataSources query).isOk = false := by
  unfold searchE
  cases hf : filterE (fun ds => ds.isRelevantFor query) dataSources with
  | ok l =>
    rw [hf] at h
    simp [Except.isOk, Except.toBool] at h
  | error e =>
    simp [hf, Except.isOk, Except.toBool, Bind.bind, Except.bind,
      Functor.map, Except.map]

/-! ### A string-shape helper for the formatter -/

lemma found_ne_noResults (s : String) :
    ¬ ("Found " ++ s = "No results found across any data sources.") := by
  intro h
  have hd := congrArg String.data h
  rw [String.data_append] at hd
  have h2 : some 'F' = some 'N' := by
    calc some 'F' = ("Found ".data ++ s.data).head? := rfl
    _ = ("No results found across any data sources.".data).head? := by
        rw [hd]
    _ = some 'N' := rfl
  exact absurd (Option.some.inj h2) (by decide)

lemma append_tail_eq (x c d e f g : String)
    (h : c ++ (d ++ (e ++ f)) = g) :
    (((x ++ c) ++ d) ++ e) ++ f = x ++ g := by
  simp only [String.append_assoc]
  rw [h]

/-! ### Concrete instances used by witnesses and counterexamples -/

/-- A source relevant only to the query "db". -/
def srcA : IDataSource :=
  ⟨"A", fun q => q == "db", fun _ => Except.ok []⟩

/-- A source that never claims relevance. -/
def srcB : IDataSource :=
  ⟨"B", fun _ => false, fun _ => Except.ok []⟩

/-- Title "a-b", source "c": dedup key "a-b-c". -/
def collA : SearchResult := ⟨"c", "a-b", "", none, 1⟩

/-- Title "a", source "b-c": a different (title, source) pair with the
same dedup key "a-b-c". -/
def collB : SearchResult := ⟨"b-c", "a", "", none, 0⟩

/-- The higher-scored of two results sharing (title, source). -/
def dupHi : SearchResult := ⟨"Docs", "Guide", "hi", none, (95 : ℚ) / 100⟩

/-- The lower-scored of two results sharing (title, source). -/
def dupLo : SearchResult := ⟨"Docs", "Guide", "lo", none, (8 : ℚ) / 10⟩

/-- A sample result produced by the healthy backend. -/
def sampleHit : SearchResult := ⟨"Good", "hit", "body", none, 1⟩

/-- A backend whose relevance predicate raises. -/
def badSrc : IDataSourceE :=
  ⟨"Bad", fun _ => Except.error "boom", fun _ => Except.ok []⟩

/-- A healthy, relevant backend with one result. -/
def goodSrc : IDataSourceE :=
  ⟨"Good", fun _ => Except.ok true, fun _ => Except.ok [sampleHit]⟩

/-- A result with an ordinary source name. -/
def resD : SearchResult := ⟨"Docs", "Guide", "bd", none, 1⟩

/-- A result whose source "5" is an ECMAScript array-index string. -/
def idxRes : SearchResult := ⟨"5", "Five", "b5", none, 1⟩

/-- A result whose source names an `Object.prototype` member. -/
def protoHit : SearchResult := ⟨"toString", "Proto", "bp", none, 1⟩

/-! ### The claims -/

/-- Claim C1 (routing): when at least one registered backend's
`isRelevantFor(query)` is true, the search set is exactly the filter of
the registered list by that predicate (hence that subset in registration
order); when no backend claims relevance, the search set is the full
registered list. -/
theorem c1_routing (dataSources : List IDataSource) (query : String) :
    ((∃ ds ∈ dataSources, ds.isRelevantFor query = true) →
      selectSources dataSources query
        = dataSources.filter (fun ds => ds.isRelevantFor query))
    ∧ ((∀ ds ∈ dataSources, ds.isRelevantFor query = false) →
      selectSources dataSources query = dataSources) := by
  constructor
  · rintro ⟨d, hd, hrel⟩
    rw [selectSources_eq]
    rw [if_pos]
    exact List.length_pos.mpr
      (List.ne_nil_of_mem (List.mem_filter.mpr ⟨hd, by simp [hrel]⟩))
  · intro h
    rw [selectSources_eq]
    have hfil : dataSources.filter (fun ds => ds.isRelevantFor query) = [] := by
      rw [List.filter_eq_nil_iff]
      intro a ha
      simp [h a ha]
    rw [hfil]
    simp

/-- Witness for C1 at a concrete registration: only `srcA` is relevant to
"db", so the search set is `[srcA]`. -/
theorem c1_routing_witness : selectSources [srcA, srcB] "db" = [srcA] := by
  have h := (c1_routing [srcA, srcB] "db").1
    ⟨srcA, List.mem_cons_self _ _, rfl⟩
  rw [h]
  rfl

/-- Claim C2, counterexample: the code deduplicates on the concatenated
string `title ++ "-" ++ source`, not on the pair, so the two results
`("a-b", "c")` and `("a", "b-c")` — whose (title, source) pairs differ —
collide on the key "a-b-c" and only one survives, refuting "any two
results whose (title, source) pairs differ are both kept". -/
theorem c2_dedup_counterexample :
    (collA.title, collA.source) ≠ (collB.title, collB.source)
    ∧ dedupKey collA = dedupKey collB
    ∧ rankResults [collA, collB] "q" = [collA] := by
  refine ⟨by decide, by decide, by decide⟩

/-- Claim C2 as amended: with the dedup key being the concatenated string
`title ++ "-" ++ source`, the aggregator walks the ranked sequence once
keeping only first key occurrences (`specDedup`), each key of the pool
survives exactly once, and the surviving result of a key has the maximal
relevance score among the pool's results with that key. -/
theorem c2_dedup_amended (pool : List SearchResult) (query : String) :
    rankResults pool query = specDedup (sortByScore pool)
    ∧ (∀ r ∈ pool, countKey (rankResults pool query) (dedupKey r) = 1)
    ∧ (∀ u ∈ rankResults pool query, ∀ r ∈ pool,
        dedupKey r = dedupKey u → r.relevanceScore ≤ u.relevanceScore) := by
  refine ⟨rankResults_eq_specDedup pool query, ?_, ?_⟩
  · intro r hr
    rw [rankResults_eq_specDedup]
    exact countKey_specDedup_of_mem _ r
      ((sortByScore_perm pool).mem_iff.mpr hr)
  · intro u hu r hr hk
    rw [rankResults_eq_specDedup] at hu
    exact specDedup_maxScore _ (sortByScore_pairwise pool) u hu r
      ((sortByScore_perm pool).mem_iff.mpr hr) hk

/-- Witness for the amended C2: the duplicated key ("Guide","Docs")
survives exactly once. -/
theorem c2_dedup_amended_witness :
    countKey (rankResults [dupHi, dupLo] "q") (dedupKey dupHi) = 1 :=
  (c2_dedup_amended [dupHi, dupLo] "q").2.1 dupHi (List.mem_cons_self _ _)

/-- Claim C3 (ranking stability): the aggregator's sort is a permutation
of the pool, ordered by `relevanceScore` descending, and stable — for any
score, the results carrying that score appear in the sorted output in
exactly their pool order. -/
theorem c3_ranking_stability (pool : List SearchResult) :
    (∀ query, rankResults pool query = dedupLoop [] (sortByScore pool))
    ∧ (sortByScore pool).Perm pool
    ∧ (sortByScore pool).Pairwise
        (fun a b => b.relevanceScore ≤ a.relevanceScore)
    ∧ ∀ s : ℚ, (sortByScore pool).filter (fun r => r.relevanceScore = s)
        = pool.filter (fun r => r.relevanceScore = s) :=
  ⟨fun _ => rfl, sortByScore_perm pool, sortByScore_pairwise pool,
    fun s => sortByScore_filter s pool⟩

/-- Claim C4 (failure isolation): the error-status progress events of a
search are exactly one per selected backend whose `search` failed (in
order, with that backend's name), and the returned sequence is the
ranking of the concatenated results of exactly the backends whose
`search` succeeded; the orchestration itself is a total function. -/
theorem c4_failure_isolation (dataSources : List IDataSource)
    (query : String) :
    (search dataSources query).1.filter
        (fun e => e.status = SearchStatus.error)
      = ((selectSources dataSources query).filter
          (fun ds => ¬ (ds.search query).isOk)).map
          (fun ds => ⟨ds.name, SearchStatus.error, none⟩)
    ∧ (search dataSources query).2
      = rankResults (((selectSources dataSources query).filter
            (fun ds => (ds.search query).isOk)).map
          (fun ds => (ds.search query).toOption.getD [])).flatten query := by
  constructor
  · rw [search_eq]
    rw [List.filter_append, searchingEvents_filter_error,
      terminal_filter_error, List.nil_append]
  · rw [search_eq]
    rw [flatten_outcomes]

/-- Claim C5, counterexample: `goodSrc` is relevant and healthy, yet
because `badSrc`'s `isRelevantFor` raises inside the unguarded filter,
the whole orchestration call rejects with `badSrc`'s error instead of
excluding `badSrc` and searching `goodSrc`. -/
theorem c5_relevance_counterexample :
    goodSrc.isRelevantFor "q" = Except.ok true
    ∧ goodSrc.search "q" = Except.ok [sampleHit]
    ∧ searchE [badSrc, goodSrc] "q" = Except.error "boom" :=
  ⟨rfl, rfl, rfl⟩

/-- Claim C5 as amended: a backend whose `isRelevantFor(query)` raises
makes the whole orchestration call reject (the exception propagates out
of the relevance filter, which runs before any backend is searched); the
backend is not treated as merely "not relevant". -/
theorem c5_relevance_amended (dataSources : List IDataSourceE)
    (query : String)
    (h : ∃ ds ∈ dataSources, (ds.isRelevantFor query).isOk = false) :
    (searchE dataSources query).isOk = false :=
  searchE_isOk_false (filterE_isOk_false h)

/-- Witness for the amended C5 at the concrete two-backend registration. -/
theorem c5_relevance_amended_witness :
    (searchE [badSrc, goodSrc] "q").isOk = false :=
  c5_relevance_amended [badSrc, goodSrc] "q"
    ⟨badSrc, List.mem_cons_self _ _, rfl⟩

/-- Claim C6: formatting an empty result sequence yields the fixed
no-results message for every result limit. -/
theorem c6_format_empty (maxResults : Nat) :
    formatResults [] maxResults
      = "No results found across any data sources." := rfl

/-- Claim C7, counterexample: under real ECMAScript object semantics the
formatter does not always preserve first-appearance source order — for
pool order Docs-then-"5" the array-index key "5" is enumerated first, so
the "5" block is rendered before the "Docs" block; and a source naming
an `Object.prototype` member ("toString") makes the grouping reduce
throw a TypeError instead of returning text at all. -/
theorem c7_format_counterexample :
    seenSources [resD, idxRes] = ["Docs", "5"]
    ∧ formatResultsJS [resD, idxRes] 10
        = Except.ok ("Found 2 results across 2 sources:\n\n"
            ++ (renderGroup ("5", [idxRes]) ++ renderGroup ("Docs", [resD])))
    ∧ ¬ (formatResultsJS [resD, idxRes] 10
        = Except.ok ("Found 2 results across 2 sources:\n\n"
            ++ (renderGroup ("Docs", [resD]) ++ renderGroup ("5", [idxRes]))))
    ∧ formatResultsJS [protoHit] 10
        = Except.error "TypeError: push is not a function" := by
  refine ⟨rfl, rfl, ?_, rfl⟩
  intro hco
  have hstr := Except.ok.inj ((rfl :
      formatResultsJS [resD, idxRes] 10
        = Except.ok ("Found 2 results across 2 sources:\n\n"
            ++ (renderGroup ("5", [idxRes])
              ++ renderGroup ("Docs", [resD])))).symm.trans hco)
  exact absurd hstr (by decide)

/-- Claim C7 as amended: on non-empty input the formatter truncates to
the limit, and — when no truncated source names an `Object.prototype`
member — renders the header with N = the pre-truncation total and M =
the number of distinct sources of the truncated list (`seenSources` is
duplicate-free and holds exactly the truncated list's sources), followed
by one block per source with that source's truncated results in order;
the blocks follow `Object.entries` order: array-index-like sources first
in ascending numeric order, then the remaining sources in
first-appearance order (a permutation of the first-appearance grouping).
When a truncated source does name an `Object.prototype` member, the call
throws a TypeError instead of returning text. -/
theorem c7_format_amended (results : List SearchResult)
    (maxResults : Nat) (h : results ≠ []) :
    ((∀ r ∈ results.take maxResults, ¬ r.source ∈ protoProps) →
      formatResultsJS results maxResults
        = Except.ok ("Found " ++ toString results.length
            ++ " results across "
            ++ toString (seenSources (results.take maxResults)).length
            ++ " sources:\n\n"
            ++ String.join ((entriesOrder
                (groupSpec (results.take maxResults))).map renderGroup)))
    ∧ ((∃ r ∈ results.take maxResults, r.source ∈ protoProps) →
      formatResultsJS results maxResults
        = Except.error "TypeError: push is not a function")
    ∧ (entriesOrder (groupSpec (results.take maxResults))).Perm
        (groupSpec (results.take maxResults))
    ∧ (seenSources (results.take maxResults)).Nodup
    ∧ (∀ s, s ∈ seenSources (results.take maxResults)
        ↔ ∃ r ∈ results.take maxResults, r.source = s) := by
  refine ⟨?_, ?_, entriesOrder_perm _, seenSources_nodup _,
    fun s => mem_seenSources⟩
  · intro hnp
    unfold formatResultsJS
    rw [if_neg (by simpa using h)]
    dsimp only
    rw [show groupBySourceJS (results.take maxResults)
          = Except.ok (groupBySource (results.take maxResults)) from
        foldlM_insertGroupJS_ok _ _ hnp]
    rw [groupBySource_eq_groupSpec]
    show Except.ok _ = Except.ok _
    rw [(entriesOrder_perm (groupSpec (results.take maxResults))).length_eq]
    unfold groupSpec
    rw [List.length_map]
  · intro hp
    unfold formatResultsJS
    rw [if_neg (by simpa using h)]
    dsimp only
    rw [show groupBySourceJS (results.take maxResults)
          = Except.error "TypeError: push is not a function" from
        foldlM_insertGroupJS_error _ _ hp
          (fun g hg => absurd hg (List.not_mem_nil g))]
    rfl

/-- Witness for the amended C7 at the Docs-then-"5" pool. -/
theorem c7_format_amended_witness :
    formatResultsJS [resD, idxRes] 10
      = Except.ok ("Found "
          ++ toString ([resD, idxRes] : List SearchResult).length
          ++ " results across "
          ++ toString (seenSources ([resD, idxRes].take 10)).length
          ++ " sources:\n\n"
          ++ String.join ((entriesOrder
              (groupSpec ([resD, idxRes].take 10))).map renderGroup)) :=
  (c7_format_amended [resD, idxRes] 10 (by simp)).1 (by decide)

/-- Claim C8: with an empty backend registration, a search returns no
results and emits no progress events (and the selected set is empty),
with no possibility of an error. -/
theorem c8_no_backends (query : String) :
    search [] query = ([], []) ∧ selectSources [] query = [] :=
  ⟨rfl, rfl⟩

/-- Claim C10: the formatter returns the fixed no-results message exactly
for empty input; for non-empty input with limit 0 it renders only the
header "Found N results across 0 sources" (N the input length) and no
result blocks; the omitted limit defaults to 10. -/
theorem c10_format_edge (results : List SearchResult) (maxResults : Nat) :
    (formatResults results maxResults
        = "No results found across any data sources." ↔ results = [])
    ∧ (results ≠ [] → formatResults results 0
        = "Found " ++ toString results.length
          ++ " results across 0 sources:\n\n")
    ∧ formatResults results = formatResults results 10 := by
  refine ⟨⟨?_, ?_⟩, ?_, rfl⟩
  · intro heq
    by_contra hne
    unfold formatResults at heq
    rw [if_neg (by simpa using hne)] at heq
    dsimp only at heq
    rw [String.append_assoc, String.append_assoc, String.append_assoc,
      String.append_assoc] at heq
    exact found_ne_noResults _ heq
  · rintro rfl
    rfl
  · intro h
    unfold formatResults
    rw [if_neg (by simpa using h)]
    dsimp only
    rw [List.take_zero]
    exact append_tail_eq _ _ _ _ _ _ rfl

/-- Witness for C10 at a concrete non-empty list with limit 0. -/
theorem c10_format_edge_witness :
    formatResults [sampleHit] 0 = "Found 1 results across 0 sources:\n\n" := by
  have h := (c10_format_edge [sampleHit] 0).2.1 (by simp)
  rw [h]
  rfl

end MCPOrch
